import Mathlib

/-!
Verification of the test-gating engine of `psycopg2cffi`
(`psycopg2cffi/tests/psycopg2_tests/testutils.py`): version encoding,
the CockroachDB version probe and pattern matcher, the decorator
composition machinery, and the skip predicates.  Python functions are
shallowly embedded as executable Lean definitions; raising an exception
is modelled with `Except`, and a wrapped test's outcome with explicit
result types.
-/

namespace Testutils

/-- Integer version encoding used at `testutils.py:372` and
`testutils.py:447`: `major * 10000 + minor * 100 + patch`. -/
def encodeVer (major minor patch : Nat) : Nat :=
  major * 10000 + minor * 100 + patch

/-! ### The crdb version-pattern parser

`_crdb_match_version` (testutils.py:435-448) matches the pattern string
against the regex `^(>|>=|<|<=|==|!=)\s*(\d+)(?:\.(\d+))?(?:\.(\d+))?$`.
The regex backtracks deterministically here: a one-character operator
branch can only succeed when the next non-space character is a digit,
so trying the two-character operators first is equivalent. -/

/-- The six comparison operators of the pattern grammar. -/
inductive CmpOp where
  | gt | ge | lt | le | eq | ne
deriving DecidableEq

/-- `operator.gt`/`ge`/`lt`/`le`/`eq`/`ne` applied to two integers
(testutils.py:445-448). -/
def opDenote (op : CmpOp) (a b : Nat) : Bool :=
  match op with
  | CmpOp.gt => decide (b < a)
  | CmpOp.ge => decide (b ≤ a)
  | CmpOp.lt => decide (a < b)
  | CmpOp.le => decide (a ≤ b)
  | CmpOp.eq => decide (a = b)
  | CmpOp.ne => decide (¬ a = b)

/-- Leading decimal-digit run of a character list (the `\d+` of the
regex), returned with the remainder. -/
def takeDigits : List Char → List Char × List Char
  | [] => ([], [])
  | c :: rest =>
    if c.isDigit then
      let (ds, r) := takeDigits rest
      (c :: ds, r)
    else ([], c :: rest)

/-- Numeric value of a digit run (`int` applied to the matched group). -/
def digitsVal (ds : List Char) : Nat :=
  ds.foldl (fun a c => a * 10 + (c.toNat - 48)) 0

/-- Python `\s` character class. -/
def isSpaceChar (c : Char) : Bool :=
  c == ' ' || c == '\t' || c == '\n' || c == '\r' || c == '\x0b' || c == '\x0c'

/-- The `(>|>=|<|<=|==|!=)` alternation at the start of the pattern. -/
def parseOp : List Char → Option (CmpOp × List Char)
  | '>' :: '=' :: r => some (CmpOp.ge, r)
  | '<' :: '=' :: r => some (CmpOp.le, r)
  | '=' :: '=' :: r => some (CmpOp.eq, r)
  | '!' :: '=' :: r => some (CmpOp.ne, r)
  | '>' :: r => some (CmpOp.gt, r)
  | '<' :: r => some (CmpOp.lt, r)
  | _ => none

/-- An optional `(?:\.(\d+))?` group: consumed only when a dot followed
by at least one digit is next; its value defaults to `0`
(`int(m.group(i) or 0)`, testutils.py:447). -/
def parseOptGroup (l : List Char) : Nat × List Char :=
  match l with
  | '.' :: rest =>
    match takeDigits rest with
    | ([], _) => (0, l)
    | (ds, r) => (digitsVal ds, r)
  | _ => (0, l)

/-- Full match of `^(>|>=|<|<=|==|!=)\s*(\d+)(?:\.(\d+))?(?:\.(\d+))?$`
on the pattern text, yielding operator, major, minor, patch (the last
two defaulting to 0). -/
def parsePatternChars (l : List Char) : Option (CmpOp × Nat × Nat × Nat) :=
  match parseOp l with
  | none => none
  | some (op, r1) =>
    let r2 := r1.dropWhile isSpaceChar
    match takeDigits r2 with
    | ([], _) => none
    | (ds, r3) =>
      let major := digitsVal ds
      let (minor, r4) := parseOptGroup r3
      let (patch, r5) := parseOptGroup r4
      match r5 with
      | [] => some (op, major, minor, patch)
      | _ :: _ => none

/-- Message of the `ValueError` raised for a malformed pattern
(testutils.py:441-443); `%r` of a plain string renders it between
single quotes. -/
def badPatternMsg (p : String) : String :=
  "bad crdb version pattern \x27" ++ p ++
    "\x27: should be \x27OP MAJOR[.MINOR[.BUGFIX]]\x27"

/-- `_crdb_match_version(version, pattern)` (testutils.py:435-448):
`None` pattern matches everything; a malformed pattern raises
`ValueError`; otherwise the operator is applied to `version` and
`major*10000 + minor*100 + patch` built from the pattern. -/
def _crdb_match_version (version : Nat) (pattern : Option String) :
    Except String Bool :=
  match pattern with
  | none => Except.ok true
  | some p =>
    match parsePatternChars p.data with
    | none => Except.error (badPatternMsg p)
    | some (op, major, minor, patch) =>
      Except.ok (opDenote op version (encodeVer major minor patch))

/-! ### The CockroachDB version probe

`crdb_version(conn, __crdb_version=None)` (testutils.py:344-375).  Its
banner regex is `re.search(r"\bv(\d+)\.(\d+)\.(\d+)", sver)`. -/

/-- Python `\w` (word character) class for the `\b` boundary. -/
def isWordChar (c : Char) : Bool :=
  c.isAlphanum || c == '_'

/-- Attempt to match `v(\d+)\.(\d+)\.(\d+)` at the head of the list. -/
def matchVNum (l : List Char) : Option (Nat × Nat × Nat) :=
  match l with
  | 'v' :: r1 =>
    match takeDigits r1 with
    | ([], _) => none
    | (d1, r2) =>
      match r2 with
      | '.' :: r3 =>
        match takeDigits r3 with
        | ([], _) => none
        | (d2, r4) =>
          match r4 with
          | '.' :: r5 =>
            match takeDigits r5 with
            | ([], _) => none
            | (d3, _) => some (digitsVal d1, digitsVal d2, digitsVal d3)
          | _ => none
      | _ => none
  | _ => none

/-- `re.search` scan: try the banner match at every position whose
predecessor is absent or a non-word character (the `\b` boundary before
`v`). -/
def searchBanner : Option Char → List Char → Option (Nat × Nat × Nat)
  | _, [] => none
  | prev, c :: rest =>
    let boundary := match prev with
      | none => true
      | some p => !isWordChar p
    if boundary then
      match matchVNum (c :: rest) with
      | some r => some r
      | none => searchBanner (some c) rest
    else searchBanner (some c) rest

/-- `\bv(\d+)\.(\d+)\.(\d+)` searched anywhere in the status string
(testutils.py:367). -/
def parseCrdbBanner (s : String) : Option (Nat × Nat × Nat) :=
  searchBanner none s.data

/-- A backend handle as `crdb_version` sees it: whether the connection
object has an `info` attribute (otherwise `AttributeError` is caught,
testutils.py:359-362), and the result of
`conn.info.parameter_status("crdb_version")`. -/
structure Conn where
  hasInfo : Bool
  paramStatusCrdbVersion : Option String
deriving DecidableEq

/-- `conn.info.parameter_status("crdb_version")` wrapped in the
`try/except AttributeError` of testutils.py:359-362. -/
def connStatus (c : Conn) : Option String :=
  if c.hasInfo then c.paramStatusCrdbVersion else none

/-- One call of `crdb_version(conn, __crdb_version)`
(testutils.py:344-375).  `cacheArg` is the explicit second argument
(`none` models Python `None`, the default used at every call site); the
body replaces a `None` or empty argument by a fresh empty list
(`__crdb_version = __crdb_version or list()`).  Returns the result, the
list after the call, and whether a status query was performed. -/
def crdb_version_step (conn : Conn) (cacheArg : Option (List (Option Nat))) :
    Except String (Option Nat × List (Option Nat) × Bool) :=
  let cache : List (Option Nat) :=
    match cacheArg with
    | none => []
    | some l => if l.isEmpty then [] else l
  match cache with
  | v :: _ => Except.ok (v, cache, false)
  | [] =>
    match connStatus conn with
    | none => Except.ok (none, [none], true)
    | some s =>
      match parseCrdbBanner s with
      | none =>
        Except.error ("can\x27t parse CockroachDB version from " ++ s)
      | some (a, b, c) =>
        let ver := encodeVer a b c
        Except.ok (some ver, [some ver], true)

/-- A sequence of `crdb_version(conn)` calls as they occur in one
process: every call site passes only the connection, so each call runs
`crdb_version_step` with the default `none` cache argument.  Returns
the list of results and the total number of status queries. -/
def crdb_version_run (conns : List Conn) :
    Except String (List (Option Nat) × Nat) :=
  conns.foldlM
    (fun acc c => do
      let (r, _, q) ← crdb_version_step c none
      pure (acc.1 ++ [r], acc.2 + (if q then 1 else 0)))
    ([], 0)

/-- A connection whose object lacks the `info` attribute: the status
key cannot be reported. -/
def connNoInfo : Conn := ⟨false, none⟩

/-- A CockroachDB connection reporting a v20.1.3 banner. -/
def connCrdb : Conn :=
  ⟨true, some "CockroachDB CCL v20.1.3 (x86_64-unknown-linux-gnu)"⟩

/-! ### The reason registry and `skip_if_crdb`

`crdb_reasons` (testutils.py:413-432) and the decision part of
`skip_if_crdb` (testutils.py:378-410). -/

/-- The static reason registry `crdb_reasons` (testutils.py:413-432). -/
def crdb_reasons : List (String × Nat) :=
  [("2-phase commit", 22329),
   ("backend pid", 35897),
   ("cancel", 41335),
   ("cast adds tz", 51692),
   ("cidr", 18846),
   ("composite", 27792),
   ("copy", 41608),
   ("deferrable", 48307),
   ("encoding", 35882),
   ("hstore", 41284),
   ("infinity date", 41564),
   ("interval style", 35807),
   ("large objects", 243),
   ("named cursor", 41412),
   ("nested array", 32552),
   ("notify", 41522),
   ("range", 41282),
   ("stored procedure", 1751)]

/-- Dictionary lookup `crdb_reasons[reason]` guarded by
`reason in crdb_reasons`. -/
def crdbReasonLookup (reason : String) : Option Nat :=
  (crdb_reasons.find? (fun p => p.1 == reason)).map Prod.snd

/-- The reason-enrichment step of `skip_if_crdb` (testutils.py:394-397):
a reason that is a key of the registry gets the tracking issue
reference appended; any other reason is passed through verbatim. -/
def enrich_reason (reason : String) : String :=
  match crdbReasonLookup reason with
  | some n =>
    reason ++ " (https://github.com/cockroachdb/cockroach/issues/" ++
      toString n ++ ")"
  | none => reason

/-- Python exceptions that the version-check path of `skip_if_crdb` can
raise. -/
inductive PyErr where
  | valueErr (msg : String)
deriving DecidableEq

/-- Outcome of one evaluation of the check at the top of
`skip_if_crdb` (testutils.py:391-399): either control falls through
(the test will run, or the decorator is returned), or
`unittest.SkipTest` is raised with a message. -/
inductive CrdbCheckResult where
  | passed
  | skip (msg : String)
deriving DecidableEq

/-- The decision logic of `skip_if_crdb(reason, conn, version)`
(testutils.py:388-399).  With `conn = None` (decoration time) nothing
is checked.  With a connection, `crdb_version(conn)` is called (with
its default cache argument); when it reports a CockroachDB version and
`_crdb_match_version` accepts it, `unittest.SkipTest` is raised with
the enriched reason; `ValueError` from either helper propagates. -/
def skip_if_crdb_check (reason : String) (conn : Option Conn)
    (version : Option String) : Except PyErr CrdbCheckResult :=
  match conn with
  | none => Except.ok CrdbCheckResult.passed
  | some c =>
    match crdb_version_step c none with
    | Except.error m => Except.error (PyErr.valueErr m)
    | Except.ok (ver?, _, _) =>
      match ver? with
      | none => Except.ok CrdbCheckResult.passed
      | some ver =>
        match _crdb_match_version ver version with
        | Except.error m => Except.error (PyErr.valueErr m)
        | Except.ok false => Except.ok CrdbCheckResult.passed
        | Except.ok true =>
          Except.ok (CrdbCheckResult.skip
            ("not supported on CockroachDB " ++ toString ver ++ ": " ++
              enrich_reason reason))

/-! ### `decorate_all_tests`

The suite branch of `decorate_all_tests(obj, *decorators)`
(testutils.py:154-157): for every name in `dir(obj)` starting with
`test`, each decorator in turn is applied through `getattr`/`setattr`.
An object's attribute record is modelled as an association list from
attribute names to values of the test-function type `α`. -/

/-- Python `getattr(obj, n)` on the attribute record (first entry whose
key equals `n`). -/
def getattr {α : Type} : List (String × α) → String → Option α
  | [], _ => none
  | p :: attrs, n => if p.1 = n then some p.2 else getattr attrs n

/-- Python `setattr(obj, n, v)`: every entry keyed `n` is rebound to
`v`; other entries are untouched. -/
def setattr {α : Type} (attrs : List (String × α)) (n : String) (v : α) :
    List (String × α) :=
  attrs.map (fun p => if p.1 = n then (n, v) else p)

/-- The inner loop `for d in decorators: setattr(obj, n, d(getattr(obj,
n)))` for a single attribute name (testutils.py:156-157). -/
def applyDecs {α : Type} (attrs : List (String × α)) (n : String)
    (ds : List (α → α)) : List (String × α) :=
  ds.foldl
    (fun acc d =>
      match getattr acc n with
      | some f => setattr acc n (d f)
      | none => acc)
    attrs

/-- Python `n.startswith('test')` (testutils.py:155), checked on the
character list so that it evaluates by kernel reduction. -/
def startsWithTest (n : String) : Bool :=
  match n.data with
  | 't' :: 'e' :: 's' :: 't' :: _ => true
  | _ => false

/-- The outer loop of the suite branch (testutils.py:154-157): iterate
the names of `dir(obj)` and decorate those starting with `test`. -/
def decorate_all_tests {α : Type} (attrs : List (String × α))
    (ds : List (α → α)) : List (String × α) :=
  (attrs.map Prod.fst).foldl
    (fun acc n => if startsWithTest n then applyDecs acc n ds else acc)
    attrs

/-- Net effect on one attribute of applying the decorators in listed
order, each wrapping the result of the previous one. -/
def composeDecorators {α : Type} (ds : List (α → α)) (f : α) : α :=
  ds.foldl (fun g d => d g) f

/-- Sample decorator: pre-scale the argument. -/
def dDouble (f : Nat → Nat) : Nat → Nat := fun x => f (2 * x)

/-- Sample decorator: pre-increment the argument. -/
def dSucc (f : Nat → Nat) : Nat → Nat := fun x => f (x + 1)

/-- Sample test body. -/
def idNat : Nat → Nat := fun x => x

/-! ### `skip_before_postgres` / `skip_after_postgres`

(testutils.py:236-267).  The declared tuple is padded with zeros to
three components and turned into a number by
`int("%d%02d%02d" % ver)`. -/

/-- Number of decimal digits of `n` (length of Python `"%d" % n`),
computed with structural fuel so that it reduces in the kernel. -/
def numDigitsAux : Nat → Nat → Nat
  | 0, _ => 1
  | fuel + 1, n => if n < 10 then 1 else numDigitsAux fuel (n / 10) + 1

/-- Number of decimal digits of `n`. -/
def numDigits (n : Nat) : Nat := numDigitsAux n n

/-- Length of Python `"%02d" % n`: zero-padded to at least two
characters. -/
def pad2Width (n : Nat) : Nat := max 2 (numDigits n)

/-- Value of `int("%d%02d%02d" % (a, b, c))` (testutils.py:243 and
260): decimal concatenation of `a`, `b` and `c` with the last two
zero-padded to width two. -/
def fmtVerInt (a b c : Nat) : Nat :=
  (a * 10 ^ pad2Width b + b) * 10 ^ pad2Width c + c

/-- `ver = ver + (0,) * (3 - len(ver))` followed by unpacking into the
three format fields (testutils.py:238). -/
def padTo3 (ver : List Nat) : Nat × Nat × Nat :=
  match ver with
  | [] => (0, 0, 0)
  | [a] => (a, 0, 0)
  | [a, b] => (a, b, 0)
  | a :: b :: c :: _ => (a, b, c)

/-- The version threshold `int("%d%02d%02d" % ver)` computed from the
padded declared tuple. -/
def serverVersionThreshold (ver : List Nat) : Nat :=
  match padTo3 ver with
  | (a, b, c) => fmtVerInt a b c

/-- Outcome of invoking a wrapped test: either `self.skipTest(msg)` was
returned, or the original body ran and returned a value. -/
inductive TOut (β : Type) where
  | skipped (msg : String)
  | ret (v : β)
deriving DecidableEq

/-- `skip_before_postgres(*ver)` applied to a body and invoked
(testutils.py:236-250): skip when `self.conn.server_version` is below
the threshold, otherwise run the body with its original argument. -/
def skip_before_postgres {α β : Type} (ver : List Nat)
    (server_version : Nat) (body : α → β) (x : α) : TOut β :=
  if server_version < serverVersionThreshold ver then
    TOut.skipped ("skipped because PostgreSQL " ++ toString server_version)
  else TOut.ret (body x)

/-- `skip_after_postgres(*ver)` applied to a body and invoked
(testutils.py:253-267): skip when `self.conn.server_version` is at or
above the threshold. -/
def skip_after_postgres {α β : Type} (ver : List Nat)
    (server_version : Nat) (body : α → β) (x : α) : TOut β :=
  if server_version ≥ serverVersionThreshold ver then
    TOut.skipped ("skipped because PostgreSQL " ++ toString server_version)
  else TOut.ret (body x)

/-! ### `skip_before_python` / `skip_from_python`

(testutils.py:270-297).  `sys.version_info[:len(ver)]` is compared to
the declared tuple with Python's lexicographic tuple order. -/

/-- Python tuple comparison on integer tuples: lexicographic three-way
compare, a strict prefix being smaller. -/
def tupCmp : List Nat → List Nat → Ordering
  | [], [] => Ordering.eq
  | [], _ :: _ => Ordering.lt
  | _ :: _, [] => Ordering.gt
  | a :: as, b :: bs =>
    if a < b then Ordering.lt
    else if b < a then Ordering.gt
    else tupCmp as bs

/-- The skip condition of `skip_before_python(*ver)`
(testutils.py:275): `sys.version_info[:len(ver)] < ver`. -/
def skip_before_python (ver : List Nat) (runtime : List Nat) : Bool :=
  tupCmp (runtime.take ver.length) ver == Ordering.lt

/-- The skip condition of `skip_from_python(*ver)` (testutils.py:290):
`sys.version_info[:len(ver)] >= ver`, i.e. the compare is not `lt`. -/
def skip_from_python (ver : List Nat) (runtime : List Nat) : Bool :=
  match tupCmp (runtime.take ver.length) ver with
  | Ordering.lt => false
  | _ => true

/-! ### `skip_if_no_superuser`

(testutils.py:300-314). -/

/-- Exceptions a test body may raise, as `skip_if_no_superuser` sees
them: a `ProgrammingError` carrying its `pgcode` (possibly `None`), or
any other exception class. -/
inductive PgExc where
  | programming (pgcode : Option String)
  | otherExc (name : String)
deriving DecidableEq

/-- `psycopg2cffi.errorcodes.INSUFFICIENT_PRIVILEGE` (a constant of the
external errorcodes module). -/
def INSUFFICIENT_PRIVILEGE : String := "42501"

/-- Result of running a test body: a value, a skip, or a raised
exception. -/
inductive TRes (β : Type) where
  | ok (v : β)
  | skipped (msg : String)
  | raised (e : PgExc)
deriving DecidableEq

/-- `skip_if_no_superuser(f)` invoked on a body (testutils.py:300-314):
run the body eagerly; catch `ProgrammingError`, turn it into a skip
when its `pgcode` is `INSUFFICIENT_PRIVILEGE` and re-raise it
otherwise; let every other outcome through unchanged. -/
def skip_if_no_superuser {α β : Type} (body : α → TRes β) (x : α) : TRes β :=
  match body x with
  | TRes.raised (PgExc.programming code) =>
    if code = some INSUFFICIENT_PRIVILEGE then
      TRes.skipped "skipped because not superuser"
    else TRes.raised (PgExc.programming code)
  | r => r

/-! ### Helper lemmas -/

theorem getattr_setattr {α : Type} (A : List (String × α)) (n m : String) (v : α) :
    getattr (setattr A n v) m =
      if m = n then (getattr A n).map (fun _ => v) else getattr A m := by
  induction A with
  | nil =>
    simp only [setattr, List.map_nil, getattr]
    split <;> rfl
  | cons p A ih =>
    obtain ⟨k, x⟩ := p
    simp only [setattr, List.map_cons] at *
    by_cases hkn : k = n
    · subst hkn
      by_cases hmk : m = k
      · subst hmk
        simp [getattr]
      · have hkm : ¬ k = m := fun h => hmk h.symm
        simp [getattr, hkm, hmk, ih]
    · by_cases hmk : m = k
      · subst hmk
        have hmn : ¬ m = n := hkn
        simp [getattr, hkn, hmn]
      · have hkm : ¬ k = m := fun h => hmk h.symm
        simp [getattr, hkn, hkm, ih]

theorem setattr_keys {α : Type} (A : List (String × α)) (n : String) (v : α) :
    (setattr A n v).map Prod.fst = A.map Prod.fst := by
  induction A with
  | nil => rfl
  | cons p A ih =>
    obtain ⟨k, x⟩ := p
    by_cases hkn : k = n
    · subst hkn; simp [setattr] at *; exact ih
    · simp [setattr, hkn] at *; exact ih

theorem applyDecs_getattr {α : Type} (ds : List (α → α)) (A : List (String × α))
    (n m : String) :
    getattr (applyDecs A n ds) m =
      if m = n then (getattr A n).map (composeDecorators ds) else getattr A m := by
  induction ds generalizing A with
  | nil =>
    simp only [applyDecs, List.foldl_nil]
    by_cases h : m = n
    · subst h; cases getattr A m <;> simp [composeDecorators]
    · simp [h]
  | cons d ds ih =>
    cases h : getattr A n with
    | none =>
      simp only [applyDecs, List.foldl_cons, h]
      rw [show List.foldl _ A ds = applyDecs A n ds from rfl, ih]
      simp [h]
    | some f =>
      simp only [applyDecs, List.foldl_cons, h]
      rw [show List.foldl _ (setattr A n (d f)) ds
            = applyDecs (setattr A n (d f)) n ds from rfl, ih]
      rw [getattr_setattr, getattr_setattr]
      simp only [if_pos rfl, h]
      by_cases hmn : m = n
      · subst hmn; simp [composeDecorators]
      · simp [hmn]

theorem applyDecs_keys {α : Type} (ds : List (α → α)) (A : List (String × α))
    (n : String) :
    (applyDecs A n ds).map Prod.fst = A.map Prod.fst := by
  induction ds generalizing A with
  | nil => rfl
  | cons d ds ih =>
    cases h : getattr A n with
    | none => simp only [applyDecs, List.foldl_cons, h]; exact ih A
    | some f =>
      simp only [applyDecs, List.foldl_cons, h]
      rw [show List.foldl _ (setattr A n (d f)) ds
            = applyDecs (setattr A n (d f)) n ds from rfl]
      rw [ih, setattr_keys]

theorem getattr_eq_none_of_not_mem {α : Type} (A : List (String × α)) (m : String)
    (h : m ∉ A.map Prod.fst) : getattr A m = none := by
  induction A with
  | nil => rfl
  | cons p A ih =>
    simp only [List.map_cons, List.mem_cons] at h
    push_neg at h
    have h1 : ¬ p.1 = m := fun e => h.1 e.symm
    simp [getattr, h1, ih h.2]

theorem decorate_loop_getattr {α : Type} (ds : List (α → α)) (ns : List String)
    (A : List (String × α)) (hnd : ns.Nodup) (m : String) :
    getattr (ns.foldl
        (fun acc n => if startsWithTest n then applyDecs acc n ds else acc) A) m =
      if m ∈ ns ∧ startsWithTest m then
        (getattr A m).map (composeDecorators ds)
      else getattr A m := by
  induction ns generalizing A with
  | nil => simp
  | cons n ns ih =>
    rw [List.nodup_cons] at hnd
    obtain ⟨hn, hnd⟩ := hnd
    rw [List.foldl_cons, ih _ hnd]
    by_cases hmn : m = n
    · subst hmn
      have hms : m ∉ ns := hn
      by_cases ht : startsWithTest m
      · simp [hms, ht, applyDecs_getattr]
      · simp [hms, ht]
    · by_cases ht : startsWithTest n
      · rw [if_pos ht, applyDecs_getattr]
        simp [hmn]
      · simp [ht, hmn]

theorem decorate_all_tests_getattr {α : Type} (A : List (String × α))
    (ds : List (α → α)) (hnd : (A.map Prod.fst).Nodup) (m : String) :
    getattr (decorate_all_tests A ds) m =
      if startsWithTest m then
        (getattr A m).map (composeDecorators ds)
      else getattr A m := by
  rw [show decorate_all_tests A ds
        = (A.map Prod.fst).foldl
            (fun acc n => if startsWithTest n then applyDecs acc n ds else acc) A
      from rfl]
  rw [decorate_loop_getattr ds _ A hnd m]
  by_cases hm : m ∈ A.map Prod.fst
  · simp [hm]
  · rw [getattr_eq_none_of_not_mem A m hm]
    simp [hm]

theorem decorate_loop_keys {α : Type} (ds : List (α → α)) (ns : List String)
    (A : List (String × α)) :
    ((ns.foldl
        (fun acc n => if startsWithTest n then applyDecs acc n ds else acc) A).map
      Prod.fst) = A.map Prod.fst := by
  induction ns generalizing A with
  | nil => rfl
  | cons n ns ih =>
    rw [List.foldl_cons, ih]
    by_cases ht : startsWithTest n
    · rw [if_pos ht, applyDecs_keys]
    · rw [if_neg ht]

theorem pad2Width_of_le_99 (n : Nat) (h : n ≤ 99) : pad2Width n = 2 :=
  (by decide : ∀ m, m < 100 → pad2Width m = 2) n (by omega)

theorem fmtVerInt_eq_encodeVer (a b c : Nat) (hb : b ≤ 99) (hc : c ≤ 99) :
    fmtVerInt a b c = encodeVer a b c := by
  unfold fmtVerInt encodeVer
  rw [pad2Width_of_le_99 b hb, pad2Width_of_le_99 c hc,
    show (10 : Nat) ^ 2 = 100 from rfl]
  omega

theorem tupCmp_eq_lt_iff (a b : List Nat) :
    tupCmp a b = Ordering.lt ↔ List.Lex (· < ·) a b := by
  induction a generalizing b with
  | nil =>
    cases b with
    | nil => simp [tupCmp]
    | cons y ys => simpa [tupCmp] using List.Lex.nil
  | cons x xs ih =>
    cases b with
    | nil => simp [tupCmp]
    | cons y ys =>
      simp only [tupCmp]
      by_cases h1 : x < y
      · simpa [h1] using List.Lex.rel h1
      · by_cases h2 : y < x
        · have hnot : ¬ List.Lex (· < ·) (x :: xs) (y :: ys) := by
            intro h
            cases h with
            | cons h => exact Nat.lt_irrefl _ h2
            | rel h => exact h1 h
          simp [h1, h2, hnot]
        · have hxy : x = y := Nat.le_antisymm (Nat.not_lt.mp h2) (Nat.not_lt.mp h1)
          subst hxy
          simp [h1, h2, ih ys, List.Lex.cons_iff]

/-! ### Claim theorems -/

/-- C1: refuted (code bug). The probe is claimed to cache its first result for
the whole process, with subsequent calls being pure cache reads.  In the code
the cache default is `None` and a fresh list is created on every call, so a
second call re-queries: after a first call on a handle lacking the status key
returns absent, a second call on a CockroachDB handle performs a second status
query and returns its version instead of the cached absent. -/
theorem crdb_version_probe_not_cached :
    crdb_version_run [connNoInfo, connCrdb] =
      Except.ok ([none, some (encodeVer 20 1 3)], 2) := rfl

/-- C2: for a well-formed pattern the evaluator applies the parsed operator to
the version and `major*10000 + minor*100 + patch` with missing minor/patch
defaulting to 0; a `None` pattern always matches; `">= 20.1"` accepts
`encode(20,1,5)` and rejects `encode(20,0,9)`. -/
theorem crdb_match_version_spec :
    (∀ v : Nat, _crdb_match_version v none = Except.ok true) ∧
    (∀ (v : Nat) (p : String) (op : CmpOp) (major minor patch : Nat),
        parsePatternChars p.data = some (op, major, minor, patch) →
        _crdb_match_version v (some p) =
          Except.ok (opDenote op v (encodeVer major minor patch))) ∧
    parsePatternChars ">= 20.1".data = some (CmpOp.ge, 20, 1, 0) ∧
    _crdb_match_version (encodeVer 20 1 5) (some ">= 20.1") = Except.ok true ∧
    _crdb_match_version (encodeVer 20 0 9) (some ">= 20.1") = Except.ok false := by
  refine ⟨fun v => rfl, ?_, by decide, rfl, rfl⟩
  intro v p op major minor patch h
  simp [_crdb_match_version, h]

/-- C2 witness: the general clause applied to the concrete pattern
`"< 21.2.3"`. -/
theorem crdb_match_version_spec_witness :
    _crdb_match_version 200105 (some "< 21.2.3") =
      Except.ok (opDenote CmpOp.lt 200105 (encodeVer 21 2 3)) :=
  crdb_match_version_spec.2.1 200105 "< 21.2.3" CmpOp.lt 21 2 3 (by decide)

/-- C3 counterexample: with decorators listed as `[dDouble, dSucc]`, the
composed test produced by `decorate_all_tests` differs at input 1 from the
composition in which the first listed wrapper is outermost. -/
theorem decorate_first_outermost_counterexample :
    (getattr (decorate_all_tests [("test_a", idNat)] [dDouble, dSucc]) "test_a").map
        (fun f => f 1) ≠
      some (dDouble (dSucc idNat) 1) := by decide

/-- C3 amended: decorators are applied in listed order, each wrapping the
result of the previous one, so the last wrapper listed is the outermost
(evaluated first on invocation) and the first listed is the innermost. -/
theorem composeDecorators_order {α : Type} :
    (∀ (ds : List (α → α)) (d : α → α) (f : α),
        composeDecorators (ds ++ [d]) f = d (composeDecorators ds f)) ∧
    (∀ (d : α → α) (ds : List (α → α)) (f : α),
        composeDecorators (d :: ds) f = composeDecorators ds (d f)) := by
  constructor
  · intro ds d f
    simp [composeDecorators, List.foldl_append]
  · intro d ds f
    rfl

/-- C3 amended witness: the order law evaluated on concrete decorators. -/
theorem composeDecorators_order_witness :
    composeDecorators [dDouble, dSucc] idNat 1 = dSucc (composeDecorators [dDouble] idNat) 1 := by
  rw [show ([dDouble, dSucc] : List ((Nat → Nat) → Nat → Nat)) = [dDouble] ++ [dSucc] from rfl,
    composeDecorators_order.1 [dDouble] dSucc idNat]

/-- C5 counterexample: the strict chain fails inside `[0,99]` at `c = 99`
(where `encode(0,0,100) = encode(0,1,0)`) and at `b = 99` (where
`encode(0,100,0) = encode(1,0,0)`). -/
theorem encodeVer_chain_counterexample :
    ¬ (encodeVer 0 0 99 < encodeVer 0 0 (99 + 1) ∧
       encodeVer 0 0 (99 + 1) < encodeVer 0 1 0 ∧
       encodeVer 0 1 0 < encodeVer 1 0 0) ∧
    ¬ (encodeVer 0 99 0 < encodeVer 0 99 1 ∧
       encodeVer 0 99 1 < encodeVer 0 (99 + 1) 0 ∧
       encodeVer 0 (99 + 1) 0 < encodeVer 1 0 0) := by decide

/-- C5 amended: the strict chain holds whenever the incremented components
stay in range (`b, c ≤ 98`), and on triples with all components in `[0,99]`
the encoding orders exactly as the lexicographic order of the triples. -/
theorem encodeVer_order :
    (∀ a b c : Nat, b ≤ 98 → c ≤ 98 →
        encodeVer a b c < encodeVer a b (c + 1) ∧
        encodeVer a b (c + 1) < encodeVer a (b + 1) 0 ∧
        encodeVer a (b + 1) 0 < encodeVer (a + 1) 0 0) ∧
    (∀ a b c a2 b2 c2 : Nat,
        a ≤ 99 → b ≤ 99 → c ≤ 99 → a2 ≤ 99 → b2 ≤ 99 → c2 ≤ 99 →
        (encodeVer a b c < encodeVer a2 b2 c2 ↔
          (a < a2 ∨ (a = a2 ∧ (b < b2 ∨ (b = b2 ∧ c < c2)))))) := by
  constructor
  · intro a b c hb hc
    simp only [encodeVer]
    omega
  · intro a b c a2 b2 c2 ha hb hc ha2 hb2 hc2
    simp only [encodeVer]
    omega

/-- C5 amended witness: the chain at `(99, 4, 7)` and the ordering
equivalence at `(20,0,9)` versus `(20,1,0)`. -/
theorem encodeVer_order_witness :
    (encodeVer 99 4 7 < encodeVer 99 4 8 ∧
     encodeVer 99 4 8 < encodeVer 99 5 0 ∧
     encodeVer 99 5 0 < encodeVer 100 0 0) ∧
    (encodeVer 20 0 9 < encodeVer 20 1 0 ↔
      (20 < 20 ∨ (20 = 20 ∧ (0 < 1 ∨ (0 = 1 ∧ 9 < 0))))) :=
  ⟨encodeVer_order.1 99 4 7 (by decide) (by decide),
   encodeVer_order.2 20 0 9 20 1 0 (by decide) (by decide) (by decide) (by decide)
     (by decide) (by decide)⟩

/-- C4 counterexample: decorating with the malformed pattern `"bogus"` (no
connection passed) raises nothing; the `ValueError` only surfaces when the
wrapped test later runs the check against a CockroachDB connection. -/
theorem crdb_malformed_decoration_counterexample :
    parsePatternChars "bogus".data = none ∧
    skip_if_crdb_check "x" none (some "bogus") = Except.ok CrdbCheckResult.passed ∧
    skip_if_crdb_check "x" (some connCrdb) (some "bogus") =
      Except.error (PyErr.valueErr (badPatternMsg "bogus")) :=
  ⟨by decide, rfl, rfl⟩

/-- C4 amended: a pattern not matching the grammar makes the matcher raise a
`ValueError` whose message contains the offending text, but the error is
deferred: the decoration step (no connection) succeeds, and the error
surfaces when the check runs against a CockroachDB connection. -/
theorem crdb_malformed_pattern_deferred (p : String)
    (hp : parsePatternChars p.data = none) (r : String) (c : Conn) (v : Nat)
    (hc : crdb_version_step c none = Except.ok (some v, [some v], true)) :
    (∀ w : Nat, _crdb_match_version w (some p) = Except.error (badPatternMsg p)) ∧
    (∃ pre post, badPatternMsg p = pre ++ p ++ post) ∧
    skip_if_crdb_check r none (some p) = Except.ok CrdbCheckResult.passed ∧
    skip_if_crdb_check r (some c) (some p) =
      Except.error (PyErr.valueErr (badPatternMsg p)) := by
  refine ⟨fun w => by simp [_crdb_match_version, hp], ⟨_, _, rfl⟩, rfl, ?_⟩
  simp [skip_if_crdb_check, hc, _crdb_match_version, hp]

/-- C4 amended witness: the deferred error at the concrete pattern
`"not a pattern"` with the concrete CockroachDB connection. -/
theorem crdb_malformed_pattern_deferred_witness :
    skip_if_crdb_check "x" (some connCrdb) (some "not a pattern") =
      Except.error (PyErr.valueErr (badPatternMsg "not a pattern")) :=
  (crdb_malformed_pattern_deferred "not a pattern" (by decide) "x" connCrdb
      (encodeVer 20 1 3) rfl).2.2.2

/-- C6: on a suite with unique attribute names, the gate wraps exactly the
attributes whose names begin with `test` (each becoming the composition of
the listed decorators around its old value), leaves every other attribute
bound to its old value, and preserves the attribute-name list. -/
theorem decorate_all_tests_frame {α : Type} (A : List (String × α))
    (ds : List (α → α)) (hnd : (A.map Prod.fst).Nodup) :
    (decorate_all_tests A ds).map Prod.fst = A.map Prod.fst ∧
    ∀ m, getattr (decorate_all_tests A ds) m =
      if startsWithTest m then (getattr A m).map (composeDecorators ds)
      else getattr A m :=
  ⟨decorate_loop_keys ds (A.map Prod.fst) A,
   fun m => decorate_all_tests_getattr A ds hnd m⟩

/-- C6 witness: the scenario suite `test_a`, `test_b`, `helper_c` under one
decorator: the test methods are wrapped, the helper is untouched. -/
theorem decorate_all_tests_frame_witness :
    getattr (decorate_all_tests
        [("test_a", (1 : Nat)), ("test_b", 2), ("helper_c", 3)]
        [fun v => v + 10]) "test_a" = some 11 ∧
    getattr (decorate_all_tests
        [("test_a", (1 : Nat)), ("test_b", 2), ("helper_c", 3)]
        [fun v => v + 10]) "helper_c" = some 3 := by
  have h := decorate_all_tests_frame
      [("test_a", (1 : Nat)), ("test_b", 2), ("helper_c", 3)]
      [fun v => v + 10] (by decide)
  refine ⟨?_, ?_⟩
  · rw [h.2 "test_a"]; decide
  · rw [h.2 "helper_c"]; decide

/-- C7 counterexample: for the declared tuple `(9, 100)` the code's threshold
`int("%d%02d%02d" % ver) = 910000` differs from the encoder contract
`9*10000 + 100*100 + 0 = 100000`: at server version 500000 the test is
skipped although it is not below the contract encoding. -/
theorem skip_before_postgres_counterexample :
    skip_before_postgres [9, 100] 500000 idNat 0 =
      TOut.skipped "skipped because PostgreSQL 500000" ∧
    ¬ (500000 < encodeVer 9 100 0) :=
  ⟨rfl, by decide⟩

/-- C7 amended: for declared tuples of up to three components whose minor and
patch are at most 99, `skip_before_postgres` skips exactly when the backend
version is strictly below `major*10000 + minor*100 + patch` of the
zero-padded triple, `skip_after_postgres` skips exactly when it is at or
above it, and otherwise each runs the body on its original argument. -/
theorem skip_postgres_version_gate {α β : Type} (ver : List Nat) (a b c : Nat)
    (sv : Nat) (body : α → β) (x : α)
    (hlen : ver.length ≤ 3) (hpad : padTo3 ver = (a, b, c))
    (hb : b ≤ 99) (hc : c ≤ 99) :
    (skip_before_postgres ver sv body x =
        TOut.skipped ("skipped because PostgreSQL " ++ toString sv) ↔
      sv < encodeVer a b c) ∧
    (skip_before_postgres ver sv body x = TOut.ret (body x) ↔
      ¬ sv < encodeVer a b c) ∧
    (skip_after_postgres ver sv body x =
        TOut.skipped ("skipped because PostgreSQL " ++ toString sv) ↔
      sv ≥ encodeVer a b c) ∧
    (skip_after_postgres ver sv body x = TOut.ret (body x) ↔
      ¬ sv ≥ encodeVer a b c) := by
  have hthr : serverVersionThreshold ver = encodeVer a b c := by
    unfold serverVersionThreshold
    rw [hpad]
    exact fmtVerInt_eq_encodeVer a b c hb hc
  unfold skip_before_postgres skip_after_postgres
  rw [hthr]
  by_cases h : sv < encodeVer a b c
  · have h2 : ¬ sv ≥ encodeVer a b c := by omega
    simp [h, h2]
  · have h2 : sv ≥ encodeVer a b c := by omega
    simp [h, h2]

/-- C7 amended witness: the gate equivalences at the declared tuple
`(20, 1)`, server version 200005 and a concrete body. -/
theorem skip_postgres_version_gate_witness :
    (skip_before_postgres [20, 1] 200005 (fun n : Nat => n + 1) 7 =
        TOut.skipped ("skipped because PostgreSQL " ++ toString 200005) ↔
      200005 < encodeVer 20 1 0) ∧
    (skip_before_postgres [20, 1] 200005 (fun n : Nat => n + 1) 7 =
        TOut.ret 8 ↔ ¬ 200005 < encodeVer 20 1 0) ∧
    (skip_after_postgres [20, 1] 200005 (fun n : Nat => n + 1) 7 =
        TOut.skipped ("skipped because PostgreSQL " ++ toString 200005) ↔
      200005 ≥ encodeVer 20 1 0) ∧
    (skip_after_postgres [20, 1] 200005 (fun n : Nat => n + 1) 7 =
        TOut.ret 8 ↔ ¬ 200005 ≥ encodeVer 20 1 0) :=
  skip_postgres_version_gate [20, 1] 20 1 0 200005 (fun n => n + 1) 7
    (by decide) (by decide) (by decide) (by decide)

/-- C8: the superuser gate runs the body eagerly and maps its outcome: a
normal return passes through, a `ProgrammingError` with pgcode
`INSUFFICIENT_PRIVILEGE` becomes a skip, a `ProgrammingError` with any other
pgcode is re-raised unchanged, and any other exception class propagates
unchanged. -/
theorem skip_if_no_superuser_spec {α β : Type} (body : α → TRes β) (x : α) :
    (∀ v, body x = TRes.ok v → skip_if_no_superuser body x = TRes.ok v) ∧
    (body x = TRes.raised (PgExc.programming (some INSUFFICIENT_PRIVILEGE)) →
      skip_if_no_superuser body x = TRes.skipped "skipped because not superuser") ∧
    (∀ code, code ≠ some INSUFFICIENT_PRIVILEGE →
      body x = TRes.raised (PgExc.programming code) →
      skip_if_no_superuser body x = TRes.raised (PgExc.programming code)) ∧
    (∀ nm, body x = TRes.raised (PgExc.otherExc nm) →
      skip_if_no_superuser body x = TRes.raised (PgExc.otherExc nm)) := by
  refine ⟨?_, ?_, ?_, ?_⟩
  · intro v h
    simp [skip_if_no_superuser, h]
  · intro h
    simp [skip_if_no_superuser, h]
  · intro code hne h
    simp [skip_if_no_superuser, h, hne]
  · intro nm h
    simp [skip_if_no_superuser, h]

/-- C8 witness: a body raising `ProgrammingError` with the privilege pgcode
is converted to a skip. -/
theorem skip_if_no_superuser_spec_witness :
    skip_if_no_superuser
        (fun _ : Unit =>
          TRes.raised (β := Nat) (PgExc.programming (some INSUFFICIENT_PRIVILEGE))) () =
      TRes.skipped "skipped because not superuser" :=
  (skip_if_no_superuser_spec
      (fun _ : Unit =>
        TRes.raised (β := Nat) (PgExc.programming (some INSUFFICIENT_PRIVILEGE))) ()).2.1 rfl

/-- C9: a skip reason that is exactly a key of the static registry is
reported with the tracking issue reference appended; any other reason is
passed through verbatim; in the full skip message the enriched reason
appears after the version banner. -/
theorem crdb_reason_registry_spec :
    (∀ r n, crdbReasonLookup r = some n →
      enrich_reason r =
        r ++ " (https://github.com/cockroachdb/cockroach/issues/" ++
          toString n ++ ")") ∧
    (∀ r, crdbReasonLookup r = none → enrich_reason r = r) ∧
    enrich_reason "copy" =
      "copy (https://github.com/cockroachdb/cockroach/issues/41608)" ∧
    enrich_reason "some unknown reason" = "some unknown reason" ∧
    skip_if_crdb_check "copy" (some connCrdb) none =
      Except.ok (CrdbCheckResult.skip
        ("not supported on CockroachDB 200103: " ++
          "copy (https://github.com/cockroachdb/cockroach/issues/41608)")) := by
  refine ⟨?_, ?_, rfl, rfl, rfl⟩
  · intro r n h
    simp [enrich_reason, h]
  · intro r h
    simp [enrich_reason, h]

/-- C9 witness: the registry clause applied to the key `"hstore"`. -/
theorem crdb_reason_registry_spec_witness :
    enrich_reason "hstore" =
      "hstore" ++ " (https://github.com/cockroachdb/cockroach/issues/" ++
        toString 41284 ++ ")" :=
  crdb_reason_registry_spec.1 "hstore" 41284 (by decide)

/-- C10: `skip_before_python` skips exactly when the length-limited prefix of
the runtime version tuple is lexicographically below the declared tuple,
`skip_from_python` exactly when it is not, so on every input exactly one of
the two predicates skips. -/
theorem skip_python_complements (ver runtime : List Nat) :
    (skip_before_python ver runtime = true ↔
      List.Lex (· < ·) (runtime.take ver.length) ver) ∧
    (skip_from_python ver runtime = true ↔
      ¬ List.Lex (· < ·) (runtime.take ver.length) ver) ∧
    skip_before_python ver runtime = !(skip_from_python ver runtime) ∧
    ((skip_before_python ver runtime = true ∧ skip_from_python ver runtime = false) ∨
     (skip_before_python ver runtime = false ∧ skip_from_python ver runtime = true)) := by
  have hiff := tupCmp_eq_lt_iff (runtime.take ver.length) ver
  cases h : tupCmp (runtime.take ver.length) ver with
  | lt =>
    rw [h] at hiff
    have hl := hiff.mp rfl
    simp [skip_before_python, skip_from_python, h, hl]
    decide
  | eq =>
    rw [h] at hiff
    have hnl : ¬ List.Lex (· < ·) (runtime.take ver.length) ver :=
      fun hl => Ordering.noConfusion (hiff.mpr hl)
    simp [skip_before_python, skip_from_python, h, hnl]
    decide
  | gt =>
    rw [h] at hiff
    have hnl : ¬ List.Lex (· < ·) (runtime.take ver.length) ver :=
      fun hl => Ordering.noConfusion (hiff.mpr hl)
    simp [skip_before_python, skip_from_python, h, hnl]
    decide

/-- C10 witness: the complement at the declared tuple `(3, 1)` and runtime
`(3, 0, 5)`. -/
theorem skip_python_complements_witness :
    (skip_before_python [3, 1] [3, 0, 5] = true ↔
      List.Lex (· < ·) ([3, 0, 5].take [3, 1].length) [3, 1]) ∧
    skip_before_python [3, 1] [3, 0, 5] = !(skip_from_python [3, 1] [3, 0, 5]) :=
  ⟨(skip_python_complements [3, 1] [3, 0, 5]).1,
   (skip_python_complements [3, 1] [3, 0, 5]).2.2.1⟩

end Testutils
